import Mathlib

/-!
A shallow embedding of the Lofi-BTB backend route handlers
(src/server/routes/playList.js, songs.js, user.js, search.js) over an
in-memory document store, together with proofs of the behavioural
properties stated in the specification.

Ids are modelled as naturals.  Each Express handler is modelled as a pure
function from a store (and the already-authenticated caller id, as attached
by the auth middleware) to a response paired with the updated store.
`HResult.crash` models a thrown exception reaching the framework
(express-async-errors forwards it; the framework answers 500).
Joi/mongoose validation error messages are library-generated text and are
modelled as `""`; all message strings that the handlers themselves contain
are kept verbatim.
-/

namespace LofiBtb

/-- A catalog song.  The mongoose model file (`../models/song`) is not under
src; following the spec (§3: a song record has its title and artist text
fields) the searchable title is stored under the key `name`, which is the
field the search route queries. -/
structure Song where
  id : Nat
  name : String
  artist : String
  deriving DecidableEq

/-- A user record: email, liked-song id list and owned-playlist id list
(fields `likedSongs` and `playList` as the route code reads them). -/
structure User where
  id : Nat
  name : String
  email : String
  likedSongs : List Nat
  playList : List Nat
  deriving DecidableEq

/-- A playlist document with its owner reference (`user`) and ordered song
id list (`songs`), the fields the route handlers read and write. -/
structure PlayList where
  id : Nat
  name : String
  desc : String
  img : String
  user : Nat
  songs : List Nat
  deriving DecidableEq

/-- The three collections of the document store. -/
structure Store where
  users : List User
  songs : List Song
  playLists : List PlayList
  deriving DecidableEq

/-- A handler outcome: an HTTP response with a status and a message, or
`crash`, an exception that escapes the handler and is answered by the
framework as an unhandled 500. -/
inductive HResult where
  | response (status : Nat) (message : String)
  | crash
  deriving DecidableEq

/-- The HTTP status of an outcome (`none` when the handler crashed). -/
def statusOf : HResult → Option Nat
  | .response s _ => some s
  | .crash => none

/-- `Model.findById`: the first stored record with the given id. -/
def findUser (st : Store) (uid : Nat) : Option User :=
  st.users.find? (fun u => u.id == uid)

/-- `Song.findById`. -/
def findSong (st : Store) (sid : Nat) : Option Song :=
  st.songs.find? (fun s => s.id == sid)

/-- `PlayList.findById`. -/
def findPlayList (st : Store) (pid : Nat) : Option PlayList :=
  st.playLists.find? (fun p => p.id == pid)

/-- `doc.save()` for a user document: writes the document back under its
id, replacing the stored record with that id. -/
def saveUser (st : Store) (uid : Nat) (u : User) : Store :=
  { st with users := st.users.map (fun v => if v.id == uid then u else v) }

/-- `doc.save()` for a playlist document. -/
def savePlayList (st : Store) (pid : Nat) (p : PlayList) : Store :=
  { st with playLists := st.playLists.map (fun q => if q.id == pid then p else q) }

/-- `playlist.deleteOne()`: removes the playlist document with that id. -/
def deletePlayListDoc (st : Store) (pid : Nat) : Store :=
  { st with playLists := st.playLists.filter (fun q => q.id != pid) }

/-- JavaScript `Array.prototype.indexOf`: the index of the first occurrence
of `x`, with `none` standing for the sentinel `-1`. -/
def jsIndexOf? : List Nat → Nat → Option Nat
  | [], _ => none
  | a :: as, x => if a == x then some 0 else (jsIndexOf? as x).map (· + 1)

/-- JavaScript `arr.splice(arr.indexOf(x), 1)`: removes the first occurrence
of `x` when present; when `indexOf` yields `-1`, `splice(-1, 1)` starts from
the end of the array and removes the LAST element (and removes nothing from
an empty array). -/
def jsSplice1 (l : List Nat) (x : Nat) : List Nat :=
  match jsIndexOf? l x with
  | some i => l.take i ++ l.drop (i + 1)
  | none => l.dropLast

/-- PUT /api/playlists/add-song (src/server/routes/playList.js lines
259-277), after auth and after the joi body check (both body fields are
required strings; the ids are already parsed here).  The handler looks the
caller and the playlist up, dereferences `playList.user` for the ownership
check (a crash when the playlist is absent), and appends the song id only
when `indexOf` returns `-1`. -/
def addSong (st : Store) (uid pid sid : Nat) : HResult × Store :=
  match findUser st uid with
  | none => (.crash, st)
  | some u =>
    match findPlayList st pid with
    | none => (.crash, st)
    | some pl =>
      if u.id == pl.user then
        match jsIndexOf? pl.songs sid with
        | none =>
          (.response 200 "Added to play list",
            savePlayList st pid { pl with songs := pl.songs ++ [sid] })
        | some _ =>
          (.response 200 "Added to play list",
            savePlayList st pid { pl with songs := pl.songs })
      else (.response 403 "User don't have access to add", st)

/-- PUT /api/playlists/remove-song (src/server/routes/playList.js lines
311-330): after the ownership check it unconditionally runs
`songs.splice(songs.indexOf(songId), 1)` and reports success. -/
def removeSong (st : Store) (uid pid sid : Nat) : HResult × Store :=
  match findUser st uid with
  | none => (.crash, st)
  | some u =>
    match findPlayList st pid with
    | none => (.crash, st)
    | some pl =>
      if u.id == pl.user then
        (.response 200 "Remove from playlist",
          savePlayList st pid { pl with songs := jsSplice1 pl.songs sid })
      else (.response 403 "User don't have access to remove", st)

/-- The body of PUT /api/playlists/edit/:id. -/
structure EditBody where
  name : Option String
  desc : Option String
  img : Option String
  deriving DecidableEq

/-- The joi schema at src/server/routes/playList.js lines 205-209: `name` is
a required non-empty string, `desc` and `img` are optional strings that may
be empty. -/
def editBodyValid (b : EditBody) : Bool :=
  match b.name with
  | some n => n != ""
  | none => false

/-- PUT /api/playlists/edit/:id (src/server/routes/playList.js lines
204-225): body validation first (400), then playlist lookup (404), then the
ownership check (403), then the three metadata fields are overwritten. -/
def editPlayList (st : Store) (uid pid : Nat) (b : EditBody) : HResult × Store :=
  if editBodyValid b then
    match findPlayList st pid with
    | none => (.response 404 "Playlist not found", st)
    | some pl =>
      match findUser st uid with
      | none => (.crash, st)
      | some u =>
        if u.id == pl.user then
          (.response 200 "Update successfully",
            savePlayList st pid
              { pl with name := b.name.getD "", desc := b.desc.getD "",
                        img := b.img.getD "" })
        else (.response 403 "User don't have access to edit ", st)
  else (.response 400 "", st)

/-- DELETE /api/playlists/:id (src/server/routes/playList.js lines
491-503): ownership check, then `user.playList.splice(indexOf(id), 1)` and
`user.save()`, then `playlist.deleteOne()`. -/
def deletePlayList (st : Store) (uid pid : Nat) : HResult × Store :=
  match findUser st uid with
  | none => (.crash, st)
  | some u =>
    match findPlayList st pid with
    | none => (.crash, st)
    | some pl =>
      if u.id == pl.user then
        (.response 200 "Remove from libary",
          deletePlayListDoc
            (saveUser st uid { u with playList := jsSplice1 u.playList pid }) pid)
      else (.response 403 "User don't have access to delete", st)

/-- GET /api/playlists/:id (src/server/routes/playList.js lines 426-432):
the NotFound outcome at this endpoint is the 400 "not found" response; on
success the songs whose id is listed in the playlist are resolved. -/
def getPlayListWithSongs (st : Store) (pid : Nat) : HResult × List Song :=
  match findPlayList st pid with
  | none => (.response 400 "not found", [])
  | some pl => (.response 200 "", st.songs.filter (fun s => pl.songs.contains s.id))

/-- PUT /api/songs/like/:id (src/server/routes/songs.js lines 180-195):
404-style 400 when the song is absent; otherwise the song id is appended to
`user.likedSongs` when `indexOf` is `-1`, and spliced out at the found index
otherwise, with a message reporting which branch ran. -/
def toggleLike (st : Store) (uid sid : Nat) : HResult × Store :=
  match findSong st sid with
  | none => (.response 400 "song dose not exit", st)
  | some _ =>
    match findUser st uid with
    | none => (.crash, st)
    | some u =>
      match jsIndexOf? u.likedSongs sid with
      | none =>
        (.response 200 "Added to your liked song",
          saveUser st uid { u with likedSongs := u.likedSongs ++ [sid] })
      | some _ =>
        (.response 200 "Remove from your liked song",
          saveUser st uid { u with likedSongs := jsSplice1 u.likedSongs sid })

/-- The body of POST /api/songs. -/
structure SongInput where
  name : Option String
  artist : Option String
  deriving DecidableEq

/-- Modelled from the spec: the Song model's field validation
(`../models/song` is not under src).  Per §3 a song input must carry its
required text fields. -/
def validateSongInput (b : SongInput) : Bool :=
  b.name.isSome && b.artist.isSome

/-- POST /api/songs (src/server/routes/songs.js lines 45-51), after the
admin middleware.  On a validation error the source answers
`res.status(200)` with the validation message (line 47) and creates
nothing; on success the song document is saved. -/
def createSong (st : Store) (b : SongInput) (newId : Nat) : HResult × Store :=
  if validateSongInput b then
    (.response 200 "Song cerated successfully",
      { st with songs := st.songs ++
          [{ id := newId, name := b.name.getD "", artist := b.artist.getD "" }] })
  else (.response 200 "", st)

/-- The body of POST /api/users. -/
structure UserInput where
  name : Option String
  email : Option String
  password : Option String
  deriving DecidableEq

/-- Modelled from the spec: the User model's registration validation
(`../models/user` is not under src).  Per §3/§6 a registration body needs
its required fields (name, email, password). -/
def validateUserInput (b : UserInput) : Bool :=
  b.name.isSome && b.email.isSome && b.password.isSome

/-- POST /api/users (src/server/routes/user.js lines 67-91): validation
(400), then `User.findOne({email})` and a 403 Conflict when a user with the
email exists, otherwise the new user is saved. -/
def createUser (st : Store) (b : UserInput) (newId : Nat) : HResult × Store :=
  if validateUserInput b then
    if st.users.any (fun u => u.email == b.email.getD "") then
      (.response 403 "User with given email already exists!!", st)
    else
      (.response 200 "Account created successfully",
        { st with users := st.users ++
            [{ id := newId, name := b.name.getD "", email := b.email.getD "",
               likedSongs := [], playList := [] }] })
  else (.response 400 "", st)

/-- The body of PUT /api/users/:id, applied with `$set` semantics: only the
provided fields are overwritten. -/
structure UserUpdateBody where
  name : Option String
  email : Option String
  deriving DecidableEq

/-- `findByIdAndUpdate(id, {$set: body})` field application. -/
def applyUserUpdate (u : User) (b : UserUpdateBody) : User :=
  { u with name := b.name.getD u.name, email := b.email.getD u.email }

/-- PUT /api/users/:id (src/server/routes/user.js lines 195-202): only the
`validObjectId` and `auth` middleware run; the handler performs the update
and always answers 200.  The caller id is never consulted: there is no
ownership or role check. -/
def userUpdateById (st : Store) (callerId targetId : Nat) (b : UserUpdateBody) :
    HResult × Store :=
  match findUser st targetId with
  | some u => (.response 200 "", saveUser st targetId (applyUserUpdate u b))
  | none => (.response 200 "", st)

/-- The characters of a string, lowercased (ASCII). -/
def lowerChars (s : String) : List Char :=
  s.data.map Char.toLower

/-- Whether the first list is an initial segment of the second. -/
def charsStart : List Char → List Char → Bool
  | [], _ => true
  | _ :: _, [] => false
  | p :: ps, t :: ts => p == t && charsStart ps ts

/-- Whether the first list occurs contiguously inside the second. -/
def charsContain (p : List Char) : List Char → Bool
  | [] => charsStart p []
  | t :: ts => charsStart p (t :: ts) || charsContain p ts

/-- The metacharacters of the PCRE dialect MongoDB's `$regex` uses (outside
character classes); a pattern free of them denotes itself literally. -/
def isMeta (c : Char) : Bool :=
  c == '\\' || c == '^' || c == '$' || c == '.' || c == '|' || c == '?' ||
  c == '*' || c == '+' || c == '(' || c == ')' || c == '[' || c == ']' ||
  c == '\x7b' || c == '\x7d'

/-- Regular expressions: the abstract syntax for the fragment of the
external engine modelled here. -/
inductive Regex where
  | fail
  | epsilon
  | char (c : Char)
  | any
  | alt (r1 r2 : Regex)
  | cat (r1 r2 : Regex)
  | star (r : Regex)
  deriving DecidableEq

/-- Whether the expression accepts the empty word. -/
def nullable : Regex → Bool
  | .fail => false
  | .epsilon => true
  | .char _ => false
  | .any => false
  | .alt r1 r2 => nullable r1 || nullable r2
  | .cat r1 r2 => nullable r1 && nullable r2
  | .star _ => true

/-- The Brzozowski derivative of the expression by one character. -/
def deriv (r : Regex) (a : Char) : Regex :=
  match r with
  | .fail => .fail
  | .epsilon => .fail
  | .char c => if c == a then .epsilon else .fail
  | .any => .epsilon
  | .alt r1 r2 => .alt (deriv r1 a) (deriv r2 a)
  | .cat r1 r2 =>
    if nullable r1 then .alt (.cat (deriv r1 a) r2) (deriv r2 a)
    else .cat (deriv r1 a) r2
  | .star r1 => .cat (deriv r1 a) (.star r1)

/-- Whether some initial segment of the text matches the expression. -/
def matchesHere (r : Regex) : List Char → Bool
  | [] => nullable r
  | c :: cs => nullable r || matchesHere (deriv r c) cs

/-- The unanchored regex search: whether the expression matches a
contiguous segment starting anywhere in the text. -/
def regexFind (r : Regex) : List Char → Bool
  | [] => nullable r
  | c :: cs => matchesHere r (c :: cs) || regexFind r cs

/-- The regex that denotes a character list literally. -/
def literalRegex : List Char → Regex
  | [] => .epsilon
  | c :: cs => .cat (.char c) (literalRegex cs)

/-- The postfix repetition operators `*`, `+`, `?` applied to a parsed
atom. -/
def parsePost : Regex → List Char → Regex × List Char
  | r, [] => (r, [])
  | r, c :: rest =>
    if c == '*' then parsePost (.star r) rest
    else if c == '+' then parsePost (.cat r (.star r)) rest
    else if c == '?' then parsePost (.alt r .epsilon) rest
    else (r, c :: rest)

/-- The three nonterminals of the pattern grammar: alternation, sequence,
atom. -/
inductive PMode where
  | palt
  | pseq
  | patom

/-- A recursive-descent reading of a PCRE pattern on the modelled fragment:
alternation `|` over sequences of atoms with `* + ?` repetition; an atom is
a parenthesised group, the wildcard `.`, an escaped non-alphanumeric
character (a literal), or a plain non-metacharacter.  The fuel bounds the
descent depth; constructs outside the fragment (character classes, anchors,
bounded repetition, alphanumeric escapes) are rejected. -/
def parseF : Nat → PMode → List Char → Option (Regex × List Char)
  | 0, _, _ => none
  | fuel + 1, .palt, cs =>
    match parseF fuel .pseq cs with
    | none => none
    | some (r1, rest) =>
      match rest with
      | [] => some (r1, [])
      | d :: rest2 =>
        if d == '|' then
          match parseF fuel .palt rest2 with
          | none => none
          | some (r2, rest3) => some (.alt r1 r2, rest3)
        else some (r1, d :: rest2)
  | _ + 1, .pseq, [] => some (.epsilon, [])
  | fuel + 1, .pseq, c :: rest =>
    if c == '|' || c == ')' then some (.epsilon, c :: rest)
    else
      match parseF fuel .patom (c :: rest) with
      | none => none
      | some (a, rest2) =>
        match parsePost a rest2 with
        | (t, rest3) =>
          match parseF fuel .pseq rest3 with
          | none => none
          | some (s, rest4) => some (.cat t s, rest4)
  | _ + 1, .patom, [] => none
  | fuel + 1, .patom, c :: rest =>
    if c == '(' then
      match parseF fuel .palt rest with
      | none => none
      | some (r, rest2) =>
        match rest2 with
        | d :: rest3 => if d == ')' then some (r, rest3) else none
        | [] => none
    else if c == '.' then some (.any, rest)
    else if c == '\\' then
      match rest with
      | d :: rest2 => if d.isAlphanum then none else some (.char d, rest2)
      | [] => none
    else if isMeta c then none
    else some (.char c, rest)

/-- The `{$regex: q, $options: "i"}` predicate of the external MongoDB
engine (an external collaborator, like bcrypt and jwt), on the modelled
PCRE fragment: the raw user query is the pattern; it is parsed and matched
unanchored against the stored text, case-insensitively (both sides
lowercased, which disturbs no metacharacter).  A pattern the parser rejects
(a construct outside the fragment, or invalid syntax) is beyond the model
and answers `false`; no theorem below quantifies over such patterns. -/
def mongoRegexMatch (q s : String) : Bool :=
  match parseF (4 * (lowerChars q).length + 4) .palt (lowerChars q) with
  | some (r, []) => regexFind r (lowerChars s)
  | _ => false

/-- The specification's description of the search semantics (§4.3), stated
from the spec's words for comparison with the engine's `$regex` behaviour:
a case-insensitive substring test of the query against the stored name. -/
def specSubstringMatch (q s : String) : Bool :=
  charsContain (lowerChars q) (lowerChars s)

/-- Queries containing no PCRE metacharacter: on these the `$regex` pattern
denotes itself literally. -/
def literalQuery (q : String) : Bool :=
  (lowerChars q).all (fun c => !(isMeta c))

/-- The search response: `res.send({})` for an empty query, otherwise the
two capped result lists. -/
inductive SearchResult where
  | empty
  | results (songs : List Song) (playLists : List PlayList)
  deriving DecidableEq

/-- GET /api/search (src/server/routes/search.js lines 49-63): a non-empty
query is passed as the raw `$regex` pattern with the `i` option against the
stored name fields of songs and playlists, each result list limited to 10;
the empty query answers the empty object. -/
def searchRoute (st : Store) (q : String) : SearchResult :=
  if q != "" then
    .results ((st.songs.filter (fun s => mongoRegexMatch q s.name)).take 10)
      ((st.playLists.filter (fun p => mongoRegexMatch q p.name)).take 10)
  else .empty

/-- `n` successive calls of the add-song handler with the same arguments
(the store threaded through; the `n = 1` case is a single call). -/
def addSongIter (uid pid sid : Nat) : Nat → Store → Store
  | 0, st => st
  | n + 1, st => addSongIter uid pid sid n (addSong st uid pid sid).2

/-- A store for exercising remove-song: user 1 owns playlist 10, whose song
list is `[5, 6]`; song id 7 is not in the list. -/
def stC1 : Store :=
  ⟨[⟨1, "owner", "o@x", [], [10]⟩], [], [⟨10, "pl", "", "", 1, [5, 6]⟩]⟩

/-- A store for exercising the edit route: user 1 owns playlist 10 and user
2 is another authenticated user. -/
def stC2 : Store :=
  ⟨[⟨1, "owner", "o@x", [], [10]⟩, ⟨2, "alice", "a@x", [], []⟩], [],
   [⟨10, "pl", "", "", 1, []⟩]⟩

/-- A store for exercising playlist deletion and the add-song law: user 1
owns the initially empty playlist 10, listed in the user's `playList`. -/
def stC4 : Store :=
  ⟨[⟨1, "owner", "o@x", [], [10]⟩], [], [⟨10, "pl", "", "", 1, []⟩]⟩

/-- A catalog for exercising the search route: the two songs of the
specification's concrete test. -/
def stC7 : Store :=
  ⟨[], [⟨1, "Lofi Dreams", "A"⟩, ⟨2, "Rock Anthem", "B"⟩], []⟩

/-! ### Lemmas about the JavaScript array operations -/

theorem jsIndexOf?_eq_none (l : List Nat) (x : Nat) :
    jsIndexOf? l x = none ↔ x ∉ l := by
  induction l with
  | nil => simp [jsIndexOf?]
  | cons a as ih =>
    by_cases ha : a = x
    · simp [jsIndexOf?, ha]
    · simp [jsIndexOf?, ha, Option.map_eq_none', ih, Ne.symm ha]

theorem not_mem_jsSplice1 (l : List Nat) (x : Nat) (h : l.count x ≤ 1) :
    x ∉ jsSplice1 l x := by
  induction l with
  | nil => simp [jsSplice1, jsIndexOf?]
  | cons a as ih =>
    by_cases ha : a = x
    · have hidx : jsIndexOf? (a :: as) x = some 0 := by simp [jsIndexOf?, ha]
      have hc : x ∉ as := by
        rw [List.count_cons] at h
        simp only [ha, beq_self_eq_true, if_true] at h
        exact List.count_eq_zero.mp (by omega)
      simp only [jsSplice1, hidx]
      simpa using hc
    · have hcas : as.count x ≤ 1 := by
        rw [List.count_cons] at h
        simpa [ha] using h
      cases hrec : jsIndexOf? as x with
      | none =>
        have hidx : jsIndexOf? (a :: as) x = none := by
          simp [jsIndexOf?, ha, hrec]
        have hxas : x ∉ as := (jsIndexOf?_eq_none as x).mp hrec
        simp only [jsSplice1, hidx]
        intro hx
        have hmem : x ∈ a :: as := (List.dropLast_sublist (a :: as)).mem hx
        rcases List.mem_cons.mp hmem with h1 | h1
        · exact ha h1.symm
        · exact hxas h1
      | some i =>
        have hidx : jsIndexOf? (a :: as) x = some (i + 1) := by
          simp [jsIndexOf?, ha, hrec]
        have ihs : x ∉ jsSplice1 as x := ih hcas
        rw [show jsSplice1 as x = as.take i ++ as.drop (i + 1) from by
          simp [jsSplice1, hrec]] at ihs
        simp only [jsSplice1, hidx, List.take_succ_cons, List.drop_succ_cons,
          List.cons_append, List.mem_cons]
        rintro (h1 | h1)
        · exact ha h1.symm
        · exact ihs h1

/-! ### Lemmas about the store operations -/

theorem find?_save {α : Type} (idf : α → Nat) (l : List α) (i : Nat) (a : α)
    (hid : idf a = i) (h : (l.find? (fun v => idf v == i)).isSome) :
    (l.map (fun v => if idf v == i then a else v)).find? (fun v => idf v == i)
      = some a := by
  induction l with
  | nil => simp at h
  | cons b bs ih =>
    by_cases hb : idf b = i
    · simp [hb, hid]
    · have hb' : (idf b == i) = false := by simp [hb]
      simp only [List.map_cons, hb', Bool.false_eq_true, if_false]
      rw [List.find?_cons_of_neg _ (by simp [hb])]
      apply ih
      rw [List.find?_cons_of_neg _ (by simp [hb])] at h
      exact h

theorem findUser_saveUser (st : Store) (uid : Nat) (u : User) (hid : u.id = uid)
    (h : (findUser st uid).isSome) : findUser (saveUser st uid u) uid = some u :=
  find?_save User.id st.users uid u hid h

theorem findPlayList_savePlayList (st : Store) (pid : Nat) (p : PlayList)
    (hid : p.id = pid) (h : (findPlayList st pid).isSome) :
    findPlayList (savePlayList st pid p) pid = some p :=
  find?_save PlayList.id st.playLists pid p hid h

theorem findUser_savePlayList (st : Store) (pid uid : Nat) (p : PlayList) :
    findUser (savePlayList st pid p) uid = findUser st uid := rfl

theorem findSong_savePlayList (st : Store) (pid sid : Nat) (p : PlayList) :
    findSong (savePlayList st pid p) sid = findSong st sid := rfl

theorem findSong_saveUser (st : Store) (uid sid : Nat) (u : User) :
    findSong (saveUser st uid u) sid = findSong st sid := rfl

theorem findPlayList_saveUser (st : Store) (uid pid : Nat) (u : User) :
    findPlayList (saveUser st uid u) pid = findPlayList st pid := rfl

theorem findUser_deletePlayListDoc (st : Store) (pid uid : Nat) :
    findUser (deletePlayListDoc st pid) uid = findUser st uid := rfl

theorem findPlayList_deleteSelf (st : Store) (pid : Nat) :
    findPlayList (deletePlayListDoc st pid) pid = none := by
  unfold findPlayList deletePlayListDoc
  apply List.find?_eq_none.mpr
  intro q hq
  have := (List.mem_filter.mp hq).2
  simp only [bne_iff_ne, ne_eq, decide_eq_true_eq] at this ⊢
  simpa using this

theorem savePlayList_idem (st : Store) (pid : Nat) (p : PlayList)
    (hid : p.id = pid) :
    savePlayList (savePlayList st pid p) pid p = savePlayList st pid p := by
  unfold savePlayList
  simp only [List.map_map]
  congr 1
  apply List.map_congr_left
  intro q _
  by_cases hq : q.id = pid
  · simp [Function.comp, hq, hid]
  · simp [Function.comp, hq]

theorem findUser_id (st : Store) (uid : Nat) (u : User)
    (h : findUser st uid = some u) : u.id = uid := by
  have := List.find?_some h
  simpa using this

theorem findPlayList_id (st : Store) (pid : Nat) (p : PlayList)
    (h : findPlayList st pid = some p) : p.id = pid := by
  have := List.find?_some h
  simpa using this

/-! ### Lemmas about the regex engine on literal patterns -/

theorem matchesHere_fail (t : List Char) : matchesHere .fail t = false := by
  induction t with
  | nil => rfl
  | cons c cs ih => simp [matchesHere, nullable, deriv, ih]

theorem matchesHere_alt (t : List Char) :
    ∀ r1 r2, matchesHere (.alt r1 r2) t
      = (matchesHere r1 t || matchesHere r2 t) := by
  induction t with
  | nil => intro r1 r2; simp [matchesHere, nullable]
  | cons c cs ih =>
    intro r1 r2
    simp only [matchesHere, nullable, deriv, ih]
    cases nullable r1 <;> cases nullable r2 <;> simp [Bool.or_assoc, Bool.or_comm, Bool.or_left_comm]

theorem matchesHere_cat_fail (t : List Char) (r : Regex) :
    matchesHere (.cat .fail r) t = false := by
  induction t with
  | nil => simp [matchesHere, nullable]
  | cons c cs ih => simp [matchesHere, nullable, deriv, ih]

theorem matchesHere_cat_epsilon (t : List Char) (r : Regex) :
    matchesHere (.cat .epsilon r) t = matchesHere r t := by
  cases t with
  | nil => simp [matchesHere, nullable]
  | cons c cs =>
    simp [matchesHere, nullable, deriv, matchesHere_alt, matchesHere_cat_fail]

theorem matchesHere_literal (p : List Char) :
    ∀ t, matchesHere (literalRegex p) t = charsStart p t := by
  induction p with
  | nil =>
    intro t
    cases t <;> simp [matchesHere, nullable, literalRegex, charsStart]
  | cons c cs ih =>
    intro t
    cases t with
    | nil => simp [matchesHere, nullable, literalRegex, charsStart]
    | cons a as =>
      cases hca : c == a <;>
        simp [matchesHere, nullable, deriv, literalRegex, charsStart, hca,
          matchesHere_cat_epsilon, matchesHere_cat_fail, ih]

theorem nullable_literal (p : List Char) :
    nullable (literalRegex p) = charsStart p [] := by
  cases p <;> rfl

theorem regexFind_literal (p t : List Char) :
    regexFind (literalRegex p) t = charsContain p t := by
  induction t with
  | nil => simp [regexFind, charsContain, nullable_literal]
  | cons c cs ih => simp [regexFind, charsContain, matchesHere_literal, ih]

theorem parsePost_literal (r : Regex) (cs : List Char)
    (h : ∀ d ∈ cs, isMeta d = false) : parsePost r cs = (r, cs) := by
  cases cs with
  | nil => rfl
  | cons c rest =>
    have hc := h c (List.mem_cons_self c rest)
    simp only [isMeta, Bool.or_eq_false_iff, and_assoc] at hc
    obtain ⟨h1, h2, h3, h4, h5, h6, h7, h8, h9, h10, h11, h12, h13, h14⟩ := hc
    simp [parsePost, h6, h7, h8]

theorem parseAtom_literal (fuel : Nat) (c : Char) (cs : List Char)
    (hc : isMeta c = false) :
    parseF (fuel + 1) .patom (c :: cs) = some (.char c, cs) := by
  have hc2 := hc
  simp only [isMeta, Bool.or_eq_false_iff, and_assoc] at hc2
  obtain ⟨h1, h2, h3, h4, h5, h6, h7, h8, h9, h10, h11, h12, h13, h14⟩ := hc2
  simp [parseF, h1, h4, h9, hc]

theorem parseSeq_literal (p : List Char) :
    (∀ c ∈ p, isMeta c = false) → ∀ fuel, 2 * p.length + 1 ≤ fuel →
      parseF fuel .pseq p = some (literalRegex p, []) := by
  induction p with
  | nil =>
    intro _ fuel hf
    obtain ⟨f, rfl⟩ : ∃ f, fuel = f + 1 := ⟨fuel - 1, by omega⟩
    simp [parseF, literalRegex]
  | cons c cs ih =>
    intro hp fuel hf
    have hlen : 2 * cs.length + 3 ≤ fuel := by
      simpa [Nat.mul_add] using hf
    obtain ⟨g, rfl⟩ : ∃ g, fuel = g + 2 := ⟨fuel - 2, by omega⟩
    have hc0 : isMeta c = false := hp c (List.mem_cons_self c cs)
    have hcs : ∀ d ∈ cs, isMeta d = false :=
      fun d hd => hp d (List.mem_cons_of_mem c hd)
    have hc := hc0
    simp only [isMeta, Bool.or_eq_false_iff, and_assoc] at hc
    obtain ⟨h1, h2, h3, h4, h5, h6, h7, h8, h9, h10, h11, h12, h13, h14⟩ := hc
    have hcond : (c == '|' || c == ')') = false := by rw [h5, h10]; rfl
    have hpost : parsePost (.char c) cs = (.char c, cs) :=
      parsePost_literal _ cs hcs
    have hseq : parseF (g + 1) .pseq cs = some (literalRegex cs, []) :=
      ih hcs (g + 1) (by omega)
    show parseF (g + 1 + 1) .pseq (c :: cs) = _
    simp [parseF, hcond, h1, h4, h9, hc0, hpost, hseq, literalRegex]

theorem parseAlt_literal (p : List Char) (hp : ∀ c ∈ p, isMeta c = false)
    (fuel : Nat) (hf : 2 * p.length + 2 ≤ fuel) :
    parseF fuel .palt p = some (literalRegex p, []) := by
  obtain ⟨f, rfl⟩ : ∃ f, fuel = f + 1 := ⟨fuel - 1, by omega⟩
  have hseq : parseF f .pseq p = some (literalRegex p, []) :=
    parseSeq_literal p hp f (by omega)
  simp [parseF, hseq]

theorem mongoRegexMatch_literal (q s : String) (hq : literalQuery q = true) :
    mongoRegexMatch q s = specSubstringMatch q s := by
  have hp : ∀ c ∈ lowerChars q, isMeta c = false := by
    intro c hcm
    have := List.all_eq_true.mp hq c hcm
    simpa using this
  have hparse : parseF (4 * (lowerChars q).length + 4) .palt (lowerChars q)
      = some (literalRegex (lowerChars q), []) :=
    parseAlt_literal _ hp _ (by omega)
  simp [mongoRegexMatch, hparse, regexFind_literal, specSubstringMatch]

/-! ### Claim theorems -/

/-- C1: the claim says removing a song id that is absent from the playlist
is a silent no-op that reports success and never removes another element.
The source (src/server/routes/playList.js lines 326-327) runs
`songs.splice(songs.indexOf(songId), 1)` unconditionally; `indexOf` yields
`-1` for an absent id and `splice(-1, 1)` removes the LAST element.  At the
playlist `[5, 6]` with absent id 7 the handler reports success (200) yet
leaves the list as `[5]`: the success half of the claim holds, the no-op
half does not. -/
theorem C1_remove_absent_removes_last :
    (removeSong stC1 1 10 7).1 = .response 200 "Remove from playlist" ∧
    findPlayList (removeSong stC1 1 10 7).2 10 = some ⟨10, "pl", "", "", 1, [5]⟩ := by
  constructor <;> rfl

/-- C2 counterexample: the claim says a non-owner's edit fails Forbidden for
EVERY request body, valid or not.  The handler validates the body first
(src/server/routes/playList.js lines 205-211), so a non-owner submitting a
body with no `name` receives 400, not 403. -/
theorem C2_invalid_body_not_forbidden :
    statusOf (editPlayList stC2 2 10 ⟨none, some "d", some "i"⟩).1 = some 400 ∧
    statusOf (editPlayList stC2 2 10 ⟨none, some "d", some "i"⟩).1 ≠ some 403 := by
  constructor <;> decide

/-- C2 (amended): for every body that passes field validation, an edit by an
authenticated non-owner of an existing playlist fails Forbidden (403) and
changes nothing, regardless of the content of the submitted fields. -/
theorem C2_nonowner_valid_body_forbidden (st : Store) (uid pid : Nat)
    (b : EditBody) (u : User) (pl : PlayList)
    (hu : findUser st uid = some u) (hpl : findPlayList st pid = some pl)
    (hown : pl.user ≠ uid) (hb : editBodyValid b = true) :
    editPlayList st uid pid b
      = (.response 403 "User don't have access to edit ", st) := by
  have hid : u.id = uid := findUser_id st uid u hu
  have hne : (u.id == pl.user) = false := by
    rw [hid]
    exact beq_eq_false_iff_ne.mpr (Ne.symm hown)
  simp [editPlayList, hb, hpl, hu, hne]

/-- C2 witness: a concrete non-owner edit with a valid body is answered 403
and the store is unchanged. -/
theorem C2_nonowner_valid_body_forbidden_witness :
    editPlayList stC2 2 10 ⟨some "n", none, none⟩
      = (.response 403 "User don't have access to edit ", stC2) :=
  C2_nonowner_valid_body_forbidden stC2 2 10 ⟨some "n", none, none⟩
    ⟨2, "alice", "a@x", [], []⟩ ⟨10, "pl", "", "", 1, []⟩ rfl rfl
    (by decide) rfl

/-- C3: the claim says an admin song-create whose body fails validation is
answered with a 400 ValidationError.  The source answers `res.status(200)`
with the validation message (src/server/routes/songs.js line 47, against its
own swagger documentation of a 400); no song record is created. -/
theorem C3_invalid_song_body_answers_200 (st : Store) (b : SongInput)
    (nid : Nat) (hb : validateSongInput b = false) :
    (createSong st b nid).1 = .response 200 "" ∧
    statusOf (createSong st b nid).1 ≠ some 400 ∧
    (createSong st b nid).2 = st := by
  simp [createSong, hb, statusOf]

/-- C3 witness: the empty body fails validation, is answered 200, and
leaves the empty store unchanged. -/
theorem C3_invalid_song_body_answers_200_witness :
    (createSong ⟨[], [], []⟩ ⟨none, none⟩ 1).1 = .response 200 "" ∧
    statusOf (createSong ⟨[], [], []⟩ ⟨none, none⟩ 1).1 ≠ some 400 ∧
    (createSong ⟨[], [], []⟩ ⟨none, none⟩ 1).2 = ⟨[], [], []⟩ :=
  C3_invalid_song_body_answers_200 ⟨[], [], []⟩ ⟨none, none⟩ 1 rfl

/-- C8: a registration whose body passes validation and whose email equals
the email of a stored user is answered 403 Conflict and the store is
unchanged: no second record with that email is created
(src/server/routes/user.js lines 71-75). -/
theorem C8_duplicate_email_conflict (st : Store) (b : UserInput) (nid : Nat)
    (e : String) (hb : validateUserInput b = true) (he : b.email = some e)
    (hdup : ∃ u ∈ st.users, u.email = e) :
    createUser st b nid
      = (.response 403 "User with given email already exists!!", st) := by
  have hany : st.users.any (fun u => u.email == b.email.getD "") = true := by
    rcases hdup with ⟨u, hmem, hue⟩
    exact List.any_eq_true.mpr ⟨u, hmem, by simp [he, hue]⟩
  simp [createUser, hb, hany]

/-- C8 witness: registering a second account under an email already stored
is answered 403 and creates nothing. -/
theorem C8_duplicate_email_conflict_witness :
    createUser ⟨[⟨1, "bob", "bob@x", [], []⟩], [], []⟩
        ⟨some "b2", some "bob@x", some "pw"⟩ 2
      = (.response 403 "User with given email already exists!!",
         ⟨[⟨1, "bob", "bob@x", [], []⟩], [], []⟩) :=
  C8_duplicate_email_conflict ⟨[⟨1, "bob", "bob@x", [], []⟩], [], []⟩
    ⟨some "b2", some "bob@x", some "pw"⟩ 2 "bob@x" rfl rfl
    ⟨⟨1, "bob", "bob@x", [], []⟩, List.mem_singleton.mpr rfl, rfl⟩

/-- C9: PUT /api/users/:id performs no ownership or role check: for every
caller (owner or not, admin or not) the handler answers 200, never 403; the
result does not depend on the caller at all, and the submitted `$set`
fields are applied to the target's record
(src/server/routes/user.js lines 195-202). -/
theorem C9_user_update_unchecked (st : Store) (c c' t : Nat)
    (b : UserUpdateBody) :
    statusOf (userUpdateById st c t b).1 = some 200 ∧
    (∀ m, (userUpdateById st c t b).1 ≠ .response 403 m) ∧
    userUpdateById st c t b = userUpdateById st c' t b ∧
    (∀ u, findUser st t = some u →
      findUser (userUpdateById st c t b).2 t = some (applyUserUpdate u b)) := by
  refine ⟨?_, ?_, rfl, ?_⟩
  · cases h : findUser st t <;> simp [userUpdateById, h, statusOf]
  · intro m
    cases h : findUser st t <;> simp [userUpdateById, h]
  · intro u hu
    simp only [userUpdateById, hu]
    exact findUser_saveUser st t (applyUserUpdate u b)
      (findUser_id st t u hu) (by simp [hu])

/-- C9 witness: caller 2 (not the target, not an admin) updates user 5 and
the update is applied with a 200 answer. -/
theorem C9_user_update_unchecked_witness :
    findUser (userUpdateById ⟨[⟨5, "v", "v@x", [], []⟩], [], []⟩ 2 5
        ⟨some "nn", none⟩).2 5
      = some (applyUserUpdate ⟨5, "v", "v@x", [], []⟩ ⟨some "nn", none⟩) :=
  (C9_user_update_unchecked ⟨[⟨5, "v", "v@x", [], []⟩], [], []⟩ 2 3 5
    ⟨some "nn", none⟩).2.2.2 ⟨5, "v", "v@x", [], []⟩ rfl

/-- C10: when the request body passes the string validation but its
`playListId` resolves to no stored playlist, both add-song and remove-song
dereference `playList.user` on the absent document during the ownership
check and crash (an unhandled framework 500, not a documented error
response), changing nothing
(src/server/routes/playList.js lines 267-269 and 319-321). -/
theorem C10_absent_playlist_crashes (st : Store) (uid pid sid : Nat)
    (u : User) (hu : findUser st uid = some u)
    (hpl : findPlayList st pid = none) :
    addSong st uid pid sid = (.crash, st) ∧
    removeSong st uid pid sid = (.crash, st) := by
  constructor <;> simp [addSong, removeSong, hu, hpl]

/-- C10 witness: an authenticated user targeting the absent playlist id 99
crashes both handlers and leaves the store unchanged. -/
theorem C10_absent_playlist_crashes_witness :
    addSong ⟨[⟨1, "u", "u@x", [], []⟩], [], []⟩ 1 99 5
      = (.crash, ⟨[⟨1, "u", "u@x", [], []⟩], [], []⟩) ∧
    removeSong ⟨[⟨1, "u", "u@x", [], []⟩], [], []⟩ 1 99 5
      = (.crash, ⟨[⟨1, "u", "u@x", [], []⟩], [], []⟩) :=
  C10_absent_playlist_crashes ⟨[⟨1, "u", "u@x", [], []⟩], [], []⟩ 1 99 5
    ⟨1, "u", "u@x", [], []⟩ rfl rfl

/-- C4: deleting an owned playlist both splices the playlist id out of the
owner's `playList` list (so, when the id is stored without a duplicate, the
id is no longer listed) and deletes the playlist document; afterwards the
GET /api/playlists/:id lookup fails with its NotFound response. -/
theorem C4_deletePlayList_consistent (st : Store) (uid pid : Nat) (u : User)
    (pl : PlayList) (hu : findUser st uid = some u)
    (hpl : findPlayList st pid = some pl) (hown : pl.user = uid)
    (hcount : u.playList.count pid ≤ 1) :
    (deletePlayList st uid pid).1 = .response 200 "Remove from libary" ∧
    findUser (deletePlayList st uid pid).2 uid
      = some { u with playList := jsSplice1 u.playList pid } ∧
    pid ∉ jsSplice1 u.playList pid ∧
    findPlayList (deletePlayList st uid pid).2 pid = none ∧
    (getPlayListWithSongs (deletePlayList st uid pid).2 pid).1
      = .response 400 "not found" := by
  have hid : u.id = uid := findUser_id st uid u hu
  have hbeq : (u.id == pl.user) = true := by
    rw [hid, hown]
    exact beq_self_eq_true uid
  have hres : deletePlayList st uid pid
      = (.response 200 "Remove from libary",
         deletePlayListDoc
           (saveUser st uid { u with playList := jsSplice1 u.playList pid })
           pid) := by
    simp [deletePlayList, hu, hpl, hbeq]
  have hfound : findPlayList (deletePlayList st uid pid).2 pid = none := by
    rw [hres]
    exact findPlayList_deleteSelf _ pid
  refine ⟨by rw [hres], ?_, not_mem_jsSplice1 u.playList pid hcount, hfound, ?_⟩
  · rw [hres]
    show findUser
        (saveUser st uid { u with playList := jsSplice1 u.playList pid }) uid
      = _
    exact findUser_saveUser st uid _ hid (by simp [hu])
  · simp [getPlayListWithSongs, hfound]

/-- C4 witness: deleting playlist 10 owned by user 1 removes it from the
user's list and the subsequent lookup fails NotFound. -/
theorem C4_deletePlayList_consistent_witness :
    findUser (deletePlayList stC4 1 10).2 1
      = some ⟨1, "owner", "o@x", [], jsSplice1 [10] 10⟩ ∧
    findPlayList (deletePlayList stC4 1 10).2 10 = none ∧
    (getPlayListWithSongs (deletePlayList stC4 1 10).2 10).1
      = .response 400 "not found" :=
  have h := C4_deletePlayList_consistent stC4 1 10
    ⟨1, "owner", "o@x", [], [10]⟩ ⟨10, "pl", "", "", 1, []⟩ rfl rfl rfl
    (by decide)
  ⟨h.2.1, h.2.2.2.1, h.2.2.2.2⟩

/-- Once a store is a fixed point of the add-song handler, any number of
further calls leaves it unchanged. -/
theorem addSongIter_fixed (uid pid sid : Nat) (st1 : Store)
    (hfix : (addSong st1 uid pid sid).2 = st1) :
    ∀ n, addSongIter uid pid sid n st1 = st1 := by
  intro n
  induction n with
  | zero => rfl
  | succ n ih =>
    show addSongIter uid pid sid n (addSong st1 uid pid sid).2 = st1
    rw [hfix]
    exact ih

/-- C5: adding a song to an owned playlist reports success, appends the id
exactly when it was absent, is a no-op on a repeat call that still reports
success, yields the same store after `n + 1` calls as after one, and keeps
the id's multiplicity at most one. -/
theorem C5_addSong_idempotent (st : Store) (uid pid sid : Nat) (u : User)
    (pl : PlayList) (hu : findUser st uid = some u)
    (hpl : findPlayList st pid = some pl) (hown : pl.user = uid) :
    (addSong st uid pid sid).1 = .response 200 "Added to play list" ∧
    (sid ∉ pl.songs →
      findPlayList (addSong st uid pid sid).2 pid
        = some { pl with songs := pl.songs ++ [sid] }) ∧
    (sid ∈ pl.songs → findPlayList (addSong st uid pid sid).2 pid = some pl) ∧
    addSong (addSong st uid pid sid).2 uid pid sid
      = (.response 200 "Added to play list", (addSong st uid pid sid).2) ∧
    (∀ n, addSongIter uid pid sid (n + 1) st = addSongIter uid pid sid 1 st) ∧
    (pl.songs.count sid ≤ 1 →
      ∀ pl', findPlayList (addSong st uid pid sid).2 pid = some pl' →
        pl'.songs.count sid ≤ 1 ∧ sid ∈ pl'.songs) := by
  have hid : u.id = uid := findUser_id st uid u hu
  have hplid : pl.id = pid := findPlayList_id st pid pl hpl
  have hbeq : (u.id == pl.user) = true := by
    rw [hid, hown]
    exact beq_self_eq_true uid
  cases hrec : jsIndexOf? pl.songs sid with
  | none =>
    have hmem : sid ∉ pl.songs := (jsIndexOf?_eq_none _ _).mp hrec
    have hT : addSong st uid pid sid
        = (.response 200 "Added to play list",
           savePlayList st pid { pl with songs := pl.songs ++ [sid] }) := by
      simp [addSong, hu, hpl, hbeq, hrec]
    have hpl1 : findPlayList (savePlayList st pid
          { pl with songs := pl.songs ++ [sid] }) pid
        = some { pl with songs := pl.songs ++ [sid] } :=
      findPlayList_savePlayList st pid _ hplid (by simp [hpl])
    have hmem1 : sid ∈ ({ pl with songs := pl.songs ++ [sid] } : PlayList).songs := by
      simp
    have hfix : addSong (savePlayList st pid
          { pl with songs := pl.songs ++ [sid] }) uid pid sid
        = (.response 200 "Added to play list",
           savePlayList st pid { pl with songs := pl.songs ++ [sid] }) := by
      cases hrec2 : jsIndexOf? ({ pl with songs := pl.songs ++ [sid] } : PlayList).songs sid with
      | none => exact absurd ((jsIndexOf?_eq_none _ _).mp hrec2) (by simp [hmem1])
      | some j =>
        have step : addSong (savePlayList st pid
              { pl with songs := pl.songs ++ [sid] }) uid pid sid
            = (.response 200 "Added to play list",
               savePlayList (savePlayList st pid
                 { pl with songs := pl.songs ++ [sid] }) pid
                 { pl with songs := pl.songs ++ [sid] }) := by
          simp [addSong, findUser_savePlayList, hu, hpl1, hrec2,
            show u.id = pl.user from by rw [hid, hown]]
        rw [step, savePlayList_idem st pid { pl with songs := pl.songs ++ [sid] } hplid]
    refine ⟨by rw [hT], fun _ => by rw [hT]; exact hpl1,
      fun hm => absurd hm hmem, by rw [hT]; exact hfix, ?_, ?_⟩
    · intro n
      have hT2 : (addSong st uid pid sid).2
          = savePlayList st pid { pl with songs := pl.songs ++ [sid] } := by
        rw [hT]
      have hfix2 : (addSong (savePlayList st pid
            { pl with songs := pl.songs ++ [sid] }) uid pid sid).2
          = savePlayList st pid { pl with songs := pl.songs ++ [sid] } := by
        rw [hfix]
      have hone : addSongIter uid pid sid 1 st
          = savePlayList st pid { pl with songs := pl.songs ++ [sid] } := by
        show addSongIter uid pid sid 0 (addSong st uid pid sid).2 = _
        rw [hT2]
        rfl
      have hsucc : addSongIter uid pid sid (n + 1) st
          = addSongIter uid pid sid n
              (savePlayList st pid { pl with songs := pl.songs ++ [sid] }) := by
        show addSongIter uid pid sid n (addSong st uid pid sid).2 = _
        rw [hT2]
      rw [hsucc, addSongIter_fixed uid pid sid _ hfix2 n, hone]
    · intro hc pl' hfind
      rw [hT] at hfind
      rw [hpl1] at hfind
      cases hfind
      constructor
      · have h0 : pl.songs.count sid = 0 := List.count_eq_zero.mpr hmem
        simp [List.count_append, h0]
      · exact hmem1
  | some i =>
    have hmem : sid ∈ pl.songs := by
      by_contra hn
      rw [(jsIndexOf?_eq_none _ _).mpr hn] at hrec
      cases hrec
    have hT : addSong st uid pid sid
        = (.response 200 "Added to play list", savePlayList st pid pl) := by
      simp [addSong, hu, hpl, hbeq, hrec]
    have hpl1 : findPlayList (savePlayList st pid pl) pid = some pl :=
      findPlayList_savePlayList st pid pl hplid (by simp [hpl])
    have hfix : addSong (savePlayList st pid pl) uid pid sid
        = (.response 200 "Added to play list", savePlayList st pid pl) := by
      have step : addSong (savePlayList st pid pl) uid pid sid
          = (.response 200 "Added to play list",
             savePlayList (savePlayList st pid pl) pid pl) := by
        simp [addSong, findUser_savePlayList, hu, hpl1, hrec,
          show u.id = pl.user from by rw [hid, hown]]
      rw [step, savePlayList_idem st pid pl hplid]
    refine ⟨by rw [hT], fun hm => absurd hmem hm,
      fun _ => by rw [hT]; exact hpl1, by rw [hT]; exact hfix, ?_, ?_⟩
    · intro n
      have hT2 : (addSong st uid pid sid).2 = savePlayList st pid pl := by
        rw [hT]
      have hfix2 : (addSong (savePlayList st pid pl) uid pid sid).2
          = savePlayList st pid pl := by
        rw [hfix]
      have hone : addSongIter uid pid sid 1 st = savePlayList st pid pl := by
        show addSongIter uid pid sid 0 (addSong st uid pid sid).2 = _
        rw [hT2]
        rfl
      have hsucc : addSongIter uid pid sid (n + 1) st
          = addSongIter uid pid sid n (savePlayList st pid pl) := by
        show addSongIter uid pid sid n (addSong st uid pid sid).2 = _
        rw [hT2]
      rw [hsucc, addSongIter_fixed uid pid sid _ hfix2 n, hone]
    · intro hc pl' hfind
      rw [hT] at hfind
      rw [hpl1] at hfind
      cases hfind
      exact ⟨hc, hmem⟩

/-- C5 witness: a second add of song 7 to the owned playlist 10 returns
success and leaves the store exactly as after the first add. -/
theorem C5_addSong_idempotent_witness :
    addSong (addSong stC4 1 10 7).2 1 10 7
      = (.response 200 "Added to play list", (addSong stC4 1 10 7).2) :=
  (C5_addSong_idempotent stC4 1 10 7 ⟨1, "owner", "o@x", [], [10]⟩
    ⟨10, "pl", "", "", 1, []⟩ rfl rfl rfl).2.2.2.1

/-- C6: for an existing song, a single toggle appends the song id when it
was absent (answering "Added to your liked song") and removes it when it was
present (answering "Remove from your liked song"); toggling twice restores
the original membership state of the id in the user's liked songs. -/
theorem C6_toggleLike_twice_restores (st : Store) (uid sid : Nat) (u : User)
    (s : Song) (hs : findSong st sid = some s) (hu : findUser st uid = some u)
    (hcount : u.likedSongs.count sid ≤ 1) :
    (sid ∉ u.likedSongs →
      (toggleLike st uid sid).1 = .response 200 "Added to your liked song" ∧
      findUser (toggleLike st uid sid).2 uid
        = some { u with likedSongs := u.likedSongs ++ [sid] }) ∧
    (sid ∈ u.likedSongs →
      (toggleLike st uid sid).1 = .response 200 "Remove from your liked song" ∧
      findUser (toggleLike st uid sid).2 uid
        = some { u with likedSongs := jsSplice1 u.likedSongs sid } ∧
      sid ∉ jsSplice1 u.likedSongs sid) ∧
    (∀ u2, findUser (toggleLike (toggleLike st uid sid).2 uid sid).2 uid
        = some u2 → (sid ∈ u2.likedSongs ↔ sid ∈ u.likedSongs)) := by
  have hid : u.id = uid := findUser_id st uid u hu
  by_cases hmem : sid ∈ u.likedSongs
  · -- present: the first toggle splices the id out
    have hrec : ∃ i, jsIndexOf? u.likedSongs sid = some i := by
      cases h : jsIndexOf? u.likedSongs sid with
      | none => exact absurd ((jsIndexOf?_eq_none _ _).mp h) (by simp [hmem])
      | some i => exact ⟨i, rfl⟩
    rcases hrec with ⟨i, hrec⟩
    have hT1 : toggleLike st uid sid
        = (.response 200 "Remove from your liked song",
           saveUser st uid { u with likedSongs := jsSplice1 u.likedSongs sid }) := by
      simp [toggleLike, hs, hu, hrec, jsSplice1]
    have hgone : sid ∉ jsSplice1 u.likedSongs sid :=
      not_mem_jsSplice1 u.likedSongs sid hcount
    have hu1 : findUser (saveUser st uid
          { u with likedSongs := jsSplice1 u.likedSongs sid }) uid
        = some { u with likedSongs := jsSplice1 u.likedSongs sid } :=
      findUser_saveUser st uid _ hid (by simp [hu])
    have hrec2 : jsIndexOf? (jsSplice1 u.likedSongs sid) sid = none :=
      (jsIndexOf?_eq_none _ _).mpr hgone
    have hT2 : toggleLike (saveUser st uid
          { u with likedSongs := jsSplice1 u.likedSongs sid }) uid sid
        = (.response 200 "Added to your liked song",
           saveUser (saveUser st uid
             { u with likedSongs := jsSplice1 u.likedSongs sid }) uid
             { u with likedSongs := jsSplice1 u.likedSongs sid ++ [sid] }) := by
      simp [toggleLike, findSong_saveUser, hs, hu1, hrec2]
    refine ⟨fun hn => absurd hmem hn, fun _ => ⟨by rw [hT1], by rw [hT1]; exact hu1, hgone⟩, ?_⟩
    intro u2 h2
    rw [hT1] at h2
    have h2' : findUser (toggleLike (saveUser st uid
          { u with likedSongs := jsSplice1 u.likedSongs sid }) uid sid).2 uid
        = some { u with likedSongs := jsSplice1 u.likedSongs sid ++ [sid] } := by
      rw [hT2]
      exact findUser_saveUser _ uid _ hid (by simp [hu1])
    rw [h2'] at h2
    cases h2
    simp [hmem]
  · -- absent: the first toggle appends the id
    have hrec : jsIndexOf? u.likedSongs sid = none :=
      (jsIndexOf?_eq_none _ _).mpr hmem
    have hT1 : toggleLike st uid sid
        = (.response 200 "Added to your liked song",
           saveUser st uid { u with likedSongs := u.likedSongs ++ [sid] }) := by
      simp [toggleLike, hs, hu, hrec]
    have hu1 : findUser (saveUser st uid
          { u with likedSongs := u.likedSongs ++ [sid] }) uid
        = some { u with likedSongs := u.likedSongs ++ [sid] } :=
      findUser_saveUser st uid _ hid (by simp [hu])
    have hcount1 : (u.likedSongs ++ [sid]).count sid ≤ 1 := by
      have h0 : u.likedSongs.count sid = 0 := List.count_eq_zero.mpr hmem
      simp [List.count_append, h0]
    have hrec2 : ∃ i, jsIndexOf? (u.likedSongs ++ [sid]) sid = some i := by
      cases h : jsIndexOf? (u.likedSongs ++ [sid]) sid with
      | none => exact absurd ((jsIndexOf?_eq_none _ _).mp h) (by simp)
      | some i => exact ⟨i, rfl⟩
    rcases hrec2 with ⟨i, hrec2⟩
    have hT2 : toggleLike (saveUser st uid
          { u with likedSongs := u.likedSongs ++ [sid] }) uid sid
        = (.response 200 "Remove from your liked song",
           saveUser (saveUser st uid
             { u with likedSongs := u.likedSongs ++ [sid] }) uid
             { u with likedSongs := jsSplice1 (u.likedSongs ++ [sid]) sid }) := by
      simp [toggleLike, findSong_saveUser, hs, hu1, hrec2]
    refine ⟨fun _ => ⟨by rw [hT1], by rw [hT1]; exact hu1⟩, fun hm => absurd hm hmem, ?_⟩
    intro u2 h2
    rw [hT1] at h2
    have h2' : findUser (toggleLike (saveUser st uid
          { u with likedSongs := u.likedSongs ++ [sid] }) uid sid).2 uid
        = some { u with likedSongs := jsSplice1 (u.likedSongs ++ [sid]) sid } := by
      rw [hT2]
      exact findUser_saveUser _ uid _ hid (by simp [hu1])
    rw [h2'] at h2
    cases h2
    have hgone2 : sid ∉ jsSplice1 (u.likedSongs ++ [sid]) sid :=
      not_mem_jsSplice1 _ sid hcount1
    simp [hmem, hgone2]

/-- C6 witness: toggling song 7 twice for user 1, starting from an empty
liked list, first reports the "added" branch and ends with 7 absent again. -/
theorem C6_toggleLike_twice_restores_witness :
    (toggleLike ⟨[⟨1, "u", "u@x", [], []⟩], [⟨7, "song", "a"⟩], []⟩ 1 7).1
      = .response 200 "Added to your liked song" :=
  ((C6_toggleLike_twice_restores ⟨[⟨1, "u", "u@x", [], []⟩], [⟨7, "song", "a"⟩], []⟩
    1 7 ⟨1, "u", "u@x", [], []⟩ ⟨7, "song", "a"⟩ rfl rfl (by decide)).1
    (by decide)).1

/-- C7 counterexample: the claim says the match for every non-empty query
is a case-insensitive substring match.  The handler passes the raw user
query as the `$regex` pattern (src/server/routes/search.js lines 52-57), so
the query "." — a regex wildcard, not a substring — returns BOTH songs of
the two-song catalog although neither name contains a "." character. -/
theorem C7_regex_query_not_substring :
    searchRoute stC7 "."
      = .results [⟨1, "Lofi Dreams", "A"⟩, ⟨2, "Rock Anthem", "B"⟩] [] ∧
    specSubstringMatch "." "Lofi Dreams" = false ∧
    specSubstringMatch "." "Rock Anthem" = false := by
  refine ⟨?_, ?_, ?_⟩ <;> decide

/-- C7 (amended): the empty query answers the empty object (not all
records); a non-empty query yields two result lists capped at 10 whose
entries all match the query interpreted as a case-insensitive regular
expression, which coincides with the claimed case-insensitive substring
match exactly on queries free of regex metacharacters; on the two-song
catalog the query "lo" returns only the song named "Lofi Dreams". -/
theorem C7_search_amended :
    (∀ st : Store, searchRoute st "" = .empty) ∧
    (∀ (st : Store) (q : String), q ≠ "" →
      ∃ songs playLists, searchRoute st q = .results songs playLists ∧
        songs.length ≤ 10 ∧ playLists.length ≤ 10 ∧
        (∀ s ∈ songs, mongoRegexMatch q s.name = true) ∧
        (∀ p ∈ playLists, mongoRegexMatch q p.name = true) ∧
        (literalQuery q = true →
          (∀ s ∈ songs, specSubstringMatch q s.name = true) ∧
          (∀ p ∈ playLists, specSubstringMatch q p.name = true))) ∧
    searchRoute stC7 "lo" = .results [⟨1, "Lofi Dreams", "A"⟩] [] := by
  refine ⟨fun st => by simp [searchRoute], ?_, by decide⟩
  intro st q hq
  have hq' : (q != "") = true := bne_iff_ne.mpr hq
  have hsong : ∀ s ∈ (st.songs.filter
      (fun s => mongoRegexMatch q s.name)).take 10,
      mongoRegexMatch q s.name = true :=
    fun s hsm => (List.mem_filter.mp (List.take_subset _ _ hsm)).2
  have hpl : ∀ p ∈ (st.playLists.filter
      (fun p => mongoRegexMatch q p.name)).take 10,
      mongoRegexMatch q p.name = true :=
    fun p hpm => (List.mem_filter.mp (List.take_subset _ _ hpm)).2
  refine ⟨(st.songs.filter (fun s => mongoRegexMatch q s.name)).take 10,
    (st.playLists.filter (fun p => mongoRegexMatch q p.name)).take 10,
    by simp [searchRoute, hq'], ?_, ?_, hsong, hpl, ?_⟩
  · rw [List.length_take]
    exact min_le_left _ _
  · rw [List.length_take]
    exact min_le_left _ _
  · intro hlit
    refine ⟨?_, ?_⟩
    · intro s hsm
      rw [← mongoRegexMatch_literal q s.name hlit]
      exact hsong s hsm
    · intro p hpm
      rw [← mongoRegexMatch_literal q p.name hlit]
      exact hpl p hpm

/-- C7 witness: the empty query on the two-song catalog answers the empty
object, and the metacharacter-free query "lo" matches only the lofi song,
with the substring reading applying. -/
theorem C7_search_amended_witness :
    searchRoute stC7 "" = .empty ∧
    (∃ songs playLists, searchRoute stC7 "lo" = .results songs playLists ∧
      songs.length ≤ 10 ∧ playLists.length ≤ 10 ∧
      (∀ s ∈ songs, mongoRegexMatch "lo" s.name = true) ∧
      (∀ p ∈ playLists, mongoRegexMatch "lo" p.name = true) ∧
      (literalQuery "lo" = true →
        (∀ s ∈ songs, specSubstringMatch "lo" s.name = true) ∧
        (∀ p ∈ playLists, specSubstringMatch "lo" p.name = true))) :=
  ⟨C7_search_amended.1 stC7, C7_search_amended.2.1 stC7 "lo" (by decide)⟩

end LofiBtb
